import Mathlib

/-!
Verification of the egui_winit_platform input bridge (src/lib.rs).

The Rust source is shallowly embedded below. Floating-point scalars
(f32 and f64 in the source) are modelled as rationals; physical pixel
sizes (u32) as naturals. The egui context is an external collaborator:
the only parts of it the bridge observes are modelled explicitly
(RawInput with mem-take semantics, and the three boolean context
queries used by captures_event). Conditional compilation is resolved
as: clipboard feature enabled with a runtime-optional handle, and the
non-macOS branch of the modifier translation.
-/

namespace EguiWinit

/-- A two-dimensional vector of logical coordinates (egui::math::Vec2,
f32 components modelled as rationals). -/
structure Vec2 where
  x : ℚ
  y : ℚ
deriving DecidableEq, Repr

/-- Constructor mirroring egui::math::vec2. -/
def vec2 (x y : ℚ) : Vec2 := ⟨x, y⟩

/-- Componentwise scalar division, modelling Vec2 / f32 in the source. -/
def Vec2.sdiv (v : Vec2) (s : ℚ) : Vec2 := ⟨v.x / s, v.y / s⟩

/-- Componentwise scalar multiplication, modelling Vec2 * f32. -/
def Vec2.smul (v : Vec2) (s : ℚ) : Vec2 := ⟨v.x * s, v.y * s⟩

/-- A position in logical coordinates (egui::math::Pos2). -/
structure Pos2 where
  x : ℚ
  y : ℚ
deriving DecidableEq, Repr

/-- Constructor mirroring egui::math::pos2. -/
def pos2 (x y : ℚ) : Pos2 := ⟨x, y⟩

/-- The origin, egui's Pos2::default(). -/
def Pos2.zero : Pos2 := ⟨0, 0⟩

/-- An axis-aligned rectangle (egui::Rect), stored as min and max corners. -/
structure Rect where
  min : Pos2
  max : Pos2
deriving DecidableEq, Repr

/-- Mirrors egui::Rect::from_min_size: max is min translated by size. -/
def Rect.from_min_size (min : Pos2) (size : Vec2) : Rect :=
  ⟨min, ⟨min.x + size.x, min.y + size.y⟩⟩

/-- Egui modifier flags (egui::Modifiers). -/
structure Modifiers where
  alt : Bool
  ctrl : Bool
  shift : Bool
  mac_cmd : Bool
  command : Bool
deriving DecidableEq, Repr

/-- Egui's Modifiers::default(): all flags false. -/
def Modifiers.none : Modifiers := ⟨false, false, false, false, false⟩

/-- Egui pointer buttons relevant to the bridge (egui::PointerButton). -/
inductive PointerButton where
  | primary
  | secondary
  | middle
deriving DecidableEq, Repr

/-- The egui key codes the bridge can produce (egui::Key, restricted to
the image of the translation table). -/
inductive Key where
  | escape | insert | home | delete | endKey | pageDown | pageUp
  | arrowLeft | arrowUp | arrowRight | arrowDown
  | backspace | enter | tab | space
  | a | k | u | w | z
deriving DecidableEq, Repr

/-- Normalized input events handed to the GUI engine (egui::Event,
restricted to the variants the bridge produces). -/
inductive EguiEvent where
  | copy
  | cut
  | text (s : String)
  | key (key : Key) (pressed : Bool) (modifiers : Modifiers)
  | pointerButton (pos : Pos2) (button : PointerButton) (pressed : Bool) (modifiers : Modifiers)
  | pointerMoved (pos : Pos2)
  | pointerGone
deriving DecidableEq, Repr

/-- The pending raw-input snapshot (egui::RawInput, restricted to the
fields the bridge reads or writes). -/
structure RawInput where
  pixels_per_point : Option ℚ
  screen_rect : Option Rect
  scroll_delta : Vec2
  time : Option ℚ
  events : List EguiEvent
deriving DecidableEq, Repr

/-- Egui's RawInput::default(): everything unset or empty. -/
def RawInput.empty : RawInput :=
  { pixels_per_point := Option.none
    screen_rect := Option.none
    scroll_delta := vec2 0 0
    time := Option.none
    events := [] }

/-- Winit modifier state (winit::keyboard::ModifiersState), as the four
boolean queries the source uses. -/
structure ModifiersState where
  alt : Bool
  control : Bool
  shift : Bool
  superKey : Bool
deriving DecidableEq, Repr

/-- ModifiersState::empty(). -/
def ModifiersState.empty : ModifiersState := ⟨false, false, false, false⟩

/-- Winit element state (winit::event::ElementState). -/
inductive ElementState where
  | pressed
  | released
deriving DecidableEq, Repr

/-- Winit mouse buttons (winit::event::MouseButton). -/
inductive MouseButton where
  | left
  | right
  | middle
  | other (id : Nat)
deriving DecidableEq, Repr

/-- Winit scroll delta (winit::event::MouseScrollDelta); line deltas are
f32 pairs, pixel deltas are physical positions, both modelled as rationals. -/
inductive MouseScrollDelta where
  | lineDelta (x y : ℚ)
  | pixelDelta (x y : ℚ)
deriving DecidableEq, Repr

/-- Winit logical keys (winit::keyboard::Key), restricted to the named
variants the translation table inspects; all other named keys collapse
into the otherKey constructor, which the table sends to none. -/
inductive WinKey where
  | escape | insert | home | delete | endKey | pageDown | pageUp
  | arrowLeft | arrowUp | arrowRight | arrowDown
  | backspace | enter | tab | space
  | character (c : String)
  | otherKey
deriving DecidableEq, Repr

/-- Winit key event (winit::event::KeyEvent, the fields the source reads). -/
structure KeyEvent where
  state : ElementState
  logical_key : WinKey
  text : Option String
deriving DecidableEq, Repr

/-- Winit window events (winit::event::WindowEvent, knowns kinds only;
every unhandled kind collapses into otherWindowEvent). Physical sizes
are u32 pairs modelled as naturals; cursor positions are f64 pairs
modelled as rationals. -/
inductive WindowEvent where
  | resized (width height : Nat)
  | scaleFactorChanged (scale_factor : ℚ) (width height : Nat)
  | mouseInput (state : ElementState) (button : MouseButton)
  | mouseWheel (delta : MouseScrollDelta)
  | cursorMoved (x y : ℚ)
  | cursorLeft
  | modifiersChanged (state : ModifiersState)
  | keyboardInput (event : KeyEvent)
  | otherWindowEvent
deriving DecidableEq, Repr

/-- Winit top-level events (winit::event::Event); device events and all
other non-window variants collapse into their own constructors. -/
inductive WinitEvent where
  | windowEvent (event : WindowEvent)
  | deviceEvent
  | otherEvent
deriving DecidableEq, Repr

/-- Rust char::is_ascii_control: U+0000 through U+001F, or U+007F. -/
def Char.is_ascii_control (c : Char) : Bool :=
  c.toNat ≤ 0x1f || c.toNat == 0x7f

/-- Mirrors fn is_printable in the source: rejects the three private-use
ranges and ASCII control characters. -/
def is_printable (chr : Char) : Bool :=
  let is_in_private_use_area :=
    (0xe000 ≤ chr.toNat && chr.toNat ≤ 0xf8ff)
    || (0xf0000 ≤ chr.toNat && chr.toNat ≤ 0xffffd)
    || (0x100000 ≤ chr.toNat && chr.toNat ≤ 0x10fffd)
  !is_in_private_use_area && ! (Char.is_ascii_control chr)

/-- ASCII lowercasing of a single character (Rust u8::to_ascii_lowercase
lifted to chars). -/
def asciiLower (c : Char) : Char :=
  if 65 ≤ c.toNat && c.toNat ≤ 90 then Char.ofNat (c.toNat + 32) else c

/-- Rust str::eq_ignore_ascii_case. -/
def eqIgnoreAsciiCase (a b : String) : Bool :=
  a.data.map asciiLower == b.data.map asciiLower

/-- The is_char closure from the KeyboardInput arm of handle_event:
true when the logical key is a Character whose string equals test_char
ASCII-case-insensitively. -/
def isCharKey (k : WinKey) (test_char : String) : Bool :=
  match k with
  | WinKey.character c => eqIgnoreAsciiCase c test_char
  | _ => false

/-- Mirrors fn winit_to_egui_key_code. -/
def winit_to_egui_key_code (key : WinKey) : Option Key :=
  match key with
  | WinKey.escape => some Key.escape
  | WinKey.insert => some Key.insert
  | WinKey.home => some Key.home
  | WinKey.delete => some Key.delete
  | WinKey.endKey => some Key.endKey
  | WinKey.pageDown => some Key.pageDown
  | WinKey.pageUp => some Key.pageUp
  | WinKey.arrowLeft => some Key.arrowLeft
  | WinKey.arrowUp => some Key.arrowUp
  | WinKey.arrowRight => some Key.arrowRight
  | WinKey.arrowDown => some Key.arrowDown
  | WinKey.backspace => some Key.backspace
  | WinKey.enter => some Key.enter
  | WinKey.tab => some Key.tab
  | WinKey.space => some Key.space
  | WinKey.character c =>
    match c with
    | "A" | "a" => some Key.a
    | "K" | "k" => some Key.k
    | "U" | "u" => some Key.u
    | "W" | "w" => some Key.w
    | "Z" | "z" => some Key.z
    | _ => Option.none
  | WinKey.otherKey => Option.none

/-- Mirrors fn winit_to_egui_modifiers, non-macOS branch: command
aliases ctrl and mac_cmd is always false. -/
def winit_to_egui_modifiers (modifiers : ModifiersState) : Modifiers :=
  { alt := modifiers.alt
    ctrl := modifiers.control
    shift := modifiers.shift
    mac_cmd := false
    command := modifiers.control }

/-- Configures the creation of the Platform (struct PlatformDescriptor;
the opaque font and style fields, which are passed through to the GUI
engine untouched, are omitted). -/
structure PlatformDescriptor where
  physical_width : Nat
  physical_height : Nat
  scale_factor : ℚ
deriving DecidableEq, Repr

/-- The bridge state (struct Platform). The egui context handle is an
external collaborator and is not part of the state the claims concern;
the clipboard handle is modelled by its observable behavior: none means
no handle, some Option.none a handle whose read fails, some (some s) a
handle whose read yields s. -/
structure Platform where
  scale_factor : ℚ
  raw_input : RawInput
  modifier_state : ModifiersState
  pointer_pos : Pos2
  clipboard : Option (Option String)
deriving DecidableEq, Repr

/-- Vec::push on the pending event buffer: appends at the end. -/
def Platform.push (p : Platform) (e : EguiEvent) : Platform :=
  { p with raw_input := { p.raw_input with events := p.raw_input.events ++ [e] } }

/-- Mirrors Platform::new. The clipboard acquisition result (the source
calls ClipboardContext::new().ok(), an environment effect) is passed in
as the clip argument. -/
def Platform.new (descriptor : PlatformDescriptor) (clip : Option (Option String)) : Platform :=
  { scale_factor := descriptor.scale_factor
    raw_input :=
      { RawInput.empty with
        pixels_per_point := some descriptor.scale_factor
        screen_rect := some (Rect.from_min_size Pos2.zero
          ((vec2 (descriptor.physical_width : ℚ) (descriptor.physical_height : ℚ)).sdiv
            descriptor.scale_factor)) }
    modifier_state := ModifiersState.empty
    pointer_pos := Pos2.zero
    clipboard := clip }

/-- The inner match of the MouseInput arm, translating a winit button to
an egui button; the Other arm is the unreachable panic in the source,
modelled as Option.none. -/
def mouseButtonToEgui (button : MouseButton) : Option PointerButton :=
  match button with
  | MouseButton.left => some PointerButton.primary
  | MouseButton.right => some PointerButton.secondary
  | MouseButton.middle => some PointerButton.middle
  | MouseButton.other _ => Option.none

/-- Mirrors Platform::handle_event. Returns Option.none exactly when the
source would panic (the unreachable arm of the mouse-button match);
every other path returns the updated platform. -/
def handleEvent (p : Platform) (winit_event : WinitEvent) : Option Platform :=
  match winit_event with
  | WinitEvent.windowEvent event =>
    match event with
    | WindowEvent.resized w h =>
      some { p with raw_input :=
        { p.raw_input with screen_rect := some (Rect.from_min_size Pos2.zero
            ((vec2 (w : ℚ) (h : ℚ)).sdiv p.scale_factor)) } }
    | WindowEvent.scaleFactorChanged scale_factor w h =>
      let p := { p with scale_factor := scale_factor }
      some { p with raw_input :=
        { p.raw_input with
          pixels_per_point := some scale_factor
          screen_rect := some (Rect.from_min_size Pos2.zero
            ((vec2 (w : ℚ) (h : ℚ)).sdiv p.scale_factor)) } }
    | WindowEvent.mouseInput state button =>
      match button with
      | MouseButton.other _ => some p
      | b =>
        match mouseButtonToEgui b with
        | some eb =>
          some (p.push (EguiEvent.pointerButton p.pointer_pos eb
            (state == ElementState.pressed) Modifiers.none))
        | Option.none => Option.none
    | WindowEvent.mouseWheel delta =>
      match delta with
      | MouseScrollDelta.lineDelta x y =>
        let line_height : ℚ := 24
        some { p with raw_input :=
          { p.raw_input with scroll_delta := (vec2 x y).smul line_height } }
      | MouseScrollDelta.pixelDelta dx dy =>
        some { p with raw_input := { p.raw_input with scroll_delta := vec2 dx dy } }
    | WindowEvent.cursorMoved x y =>
      let pos := pos2 (x / p.scale_factor) (y / p.scale_factor)
      some (({ p with pointer_pos := pos }).push (EguiEvent.pointerMoved pos))
    | WindowEvent.cursorLeft =>
      some (p.push EguiEvent.pointerGone)
    | WindowEvent.modifiersChanged input =>
      some { p with modifier_state := input }
    | WindowEvent.keyboardInput event =>
      let pressed := event.state == ElementState.pressed
      let is_ctrl := p.modifier_state.control
      let is_char := fun (test_char : String) => isCharKey event.logical_key test_char
      let p1 :=
        if pressed then
          if is_ctrl && is_char "c" then
            p.push EguiEvent.copy
          else if is_ctrl && is_char "x" then
            p.push EguiEvent.cut
          else if is_ctrl && is_char "v" then
            match p.clipboard with
            | some (some contents) => p.push (EguiEvent.text contents)
            | some Option.none => p
            | Option.none => p
          else
            match winit_to_egui_key_code event.logical_key with
            | some key =>
              p.push (EguiEvent.key key (event.state == ElementState.pressed)
                (winit_to_egui_modifiers p.modifier_state))
            | Option.none => p
        else p
      let p2 :=
        match event.text with
        | some text =>
          if !p.modifier_state.control && !p.modifier_state.superKey then
            let filtered := String.mk (text.data.filter fun ch => is_printable ch)
            if !filtered.isEmpty then
              p1.push (EguiEvent.text filtered)
            else p1
          else p1
        | Option.none => p1
      some p2
    | WindowEvent.otherWindowEvent => some p
  | WinitEvent.deviceEvent => some p
  | WinitEvent.otherEvent => some p

/-- Total view of ingestion: the platform after handle_event, defaulting
to the unchanged platform on the (never-taken) panic path. -/
def ingest (p : Platform) (e : WinitEvent) : Platform :=
  (handleEvent p e).getD p

/-- Folds ingestion over a sequence of host events. -/
def ingestList (p : Platform) (es : List WinitEvent) : Platform :=
  es.foldl ingest p

/-- Mirrors Platform::begin_frame, which calls
context.begin_frame(self.raw_input.take()): the first component is the
platform left behind (pending input reset to RawInput::default() by
mem::take), the second the raw input handed to the GUI engine. -/
def beginFrame (p : Platform) : Platform × RawInput :=
  ({ p with raw_input := RawInput.empty }, p.raw_input)

/-- Mirrors Platform::update_time. -/
def updateTime (p : Platform) (elapsed_seconds : ℚ) : Platform :=
  { p with raw_input := { p.raw_input with time := some elapsed_seconds } }

/-- The three egui context queries consulted by captures_event, modelled
as an external snapshot of the GUI engine's answers. -/
structure ContextFlags where
  wants_keyboard_input : Bool
  wants_pointer_input : Bool
  is_using_pointer : Bool
deriving DecidableEq, Repr

/-- Mirrors Platform::captures_event; a pure function of the context
query answers and the event (the source takes a shared reference and
mutates nothing). -/
def captures_event (ctx : ContextFlags) (winit_event : WinitEvent) : Bool :=
  match winit_event with
  | WinitEvent.windowEvent event =>
    match event with
    | WindowEvent.keyboardInput _ => ctx.wants_keyboard_input
    | WindowEvent.modifiersChanged _ => ctx.wants_keyboard_input
    | WindowEvent.mouseWheel _ => ctx.wants_pointer_input
    | WindowEvent.mouseInput _ _ => ctx.wants_pointer_input
    | WindowEvent.cursorMoved _ _ => ctx.is_using_pointer
    | _ => false
  | _ => false

/-- The list of egui events a single host event appends to the pending
buffer, read off branch by branch from handle_event; the lemma
handleEvent_events below proves it agrees with the embedding. -/
def normEvents (p : Platform) (winit_event : WinitEvent) : List EguiEvent :=
  match winit_event with
  | WinitEvent.windowEvent event =>
    match event with
    | WindowEvent.mouseInput state button =>
      match button with
      | MouseButton.other _ => []
      | b =>
        match mouseButtonToEgui b with
        | some eb =>
          [EguiEvent.pointerButton p.pointer_pos eb
            (state == ElementState.pressed) Modifiers.none]
        | Option.none => []
    | WindowEvent.cursorMoved x y =>
      [EguiEvent.pointerMoved (pos2 (x / p.scale_factor) (y / p.scale_factor))]
    | WindowEvent.cursorLeft => [EguiEvent.pointerGone]
    | WindowEvent.keyboardInput event =>
      let pressed := event.state == ElementState.pressed
      let is_ctrl := p.modifier_state.control
      let is_char := fun (test_char : String) => isCharKey event.logical_key test_char
      let l1 : List EguiEvent :=
        if pressed then
          if is_ctrl && is_char "c" then [EguiEvent.copy]
          else if is_ctrl && is_char "x" then [EguiEvent.cut]
          else if is_ctrl && is_char "v" then
            match p.clipboard with
            | some (some contents) => [EguiEvent.text contents]
            | some Option.none => []
            | Option.none => []
          else
            match winit_to_egui_key_code event.logical_key with
            | some key =>
              [EguiEvent.key key (event.state == ElementState.pressed)
                (winit_to_egui_modifiers p.modifier_state)]
            | Option.none => []
        else []
      let l2 : List EguiEvent :=
        match event.text with
        | some text =>
          if !p.modifier_state.control && !p.modifier_state.superKey then
            let filtered := String.mk (text.data.filter fun ch => is_printable ch)
            if !filtered.isEmpty then [EguiEvent.text filtered] else []
          else []
        | Option.none => []
      l1 ++ l2
    | _ => []
  | _ => []

/-- The full list of egui events produced by ingesting a sequence of
host events, in ingestion order, threading the evolving bridge state. -/
def traceEvents (p : Platform) : List WinitEvent → List EguiEvent
  | [] => []
  | e :: es => normEvents p e ++ traceEvents (ingest p e) es

/-- A concrete platform for witnesses: 800 x 600 physical pixels at
scale factor 2, no clipboard handle. -/
def basePlat : Platform := Platform.new ⟨800, 600, 2⟩ Option.none

/-- Modifier state with only ctrl held. -/
def ctrlMods : ModifiersState := ⟨false, true, false, false⟩

/-- The base platform after the host reported ctrl held. -/
def ctrlPlat : Platform := { basePlat with modifier_state := ctrlMods }

/-- The ctrl-held platform with a clipboard handle whose read yields
the string hi. -/
def ctrlClipPlat : Platform := { ctrlPlat with clipboard := some (some "hi") }

/-- Shorthand for a keyboard host event. -/
def kbd (state : ElementState) (key : WinKey) (text : Option String) : WinitEvent :=
  WinitEvent.windowEvent (WindowEvent.keyboardInput ⟨state, key, text⟩)

theorem handleEvent_total (p : Platform) (e : WinitEvent) :
    handleEvent p e = some (ingest p e) := by
  cases e with
  | windowEvent we =>
    cases we with
    | mouseInput st btn => cases btn <;> rfl
    | mouseWheel d => cases d <;> rfl
    | _ => rfl
  | deviceEvent => rfl
  | otherEvent => rfl

theorem handleEvent_events (p : Platform) (e : WinitEvent) :
    (ingest p e).raw_input.events = p.raw_input.events ++ normEvents p e := by
  cases e with
  | windowEvent we =>
    cases we with
    | resized w h => simp [ingest, handleEvent, normEvents]
    | scaleFactorChanged f w h => simp [ingest, handleEvent, normEvents]
    | mouseInput st btn =>
      cases btn <;> simp [ingest, handleEvent, normEvents, Platform.push, mouseButtonToEgui]
    | mouseWheel d => cases d <;> simp [ingest, handleEvent, normEvents]
    | cursorMoved x y => simp [ingest, handleEvent, normEvents, Platform.push]
    | cursorLeft => simp [ingest, handleEvent, normEvents, Platform.push]
    | modifiersChanged m => simp [ingest, handleEvent, normEvents]
    | keyboardInput kev =>
      simp only [ingest, handleEvent, normEvents, Option.getD_some]
      split <;> rename_i htext
      · split <;> rename_i hmods
        · split <;> rename_i hfil
          · simp only [Platform.push]
            split <;> rename_i hpressed
            · split
              · simp
              · split
                · simp
                · split
                  · split <;> simp
                  · split <;> simp
            · simp
          · split <;> rename_i hpressed
            · split
              · simp [Platform.push]
              · split
                · simp [Platform.push]
                · split
                  · split <;> simp [Platform.push]
                  · split <;> simp [Platform.push]
            · simp
        · split <;> rename_i hpressed
          · split
            · simp [Platform.push]
            · split
              · simp [Platform.push]
              · split
                · split <;> simp [Platform.push]
                · split <;> simp [Platform.push]
          · simp
      · split <;> rename_i hpressed
        · split
          · simp [Platform.push]
          · split
            · simp [Platform.push]
            · split
              · split <;> simp [Platform.push]
              · split <;> simp [Platform.push]
        · simp
    | otherWindowEvent => simp [ingest, handleEvent, normEvents]
  | deviceEvent => simp [ingest, handleEvent, normEvents]
  | otherEvent => simp [ingest, handleEvent, normEvents]

theorem push_scale_factor (p : Platform) (e : EguiEvent) :
    (p.push e).scale_factor = p.scale_factor := rfl

theorem push_pointer_pos (p : Platform) (e : EguiEvent) :
    (p.push e).pointer_pos = p.pointer_pos := rfl

theorem push_modifier_state (p : Platform) (e : EguiEvent) :
    (p.push e).modifier_state = p.modifier_state := rfl

theorem ingest_scale_factor (p : Platform) (e : WinitEvent)
    (h : ∀ f w h', e ≠ WinitEvent.windowEvent (WindowEvent.scaleFactorChanged f w h')) :
    (ingest p e).scale_factor = p.scale_factor := by
  cases e with
  | windowEvent we =>
    cases we with
    | resized w h' => rfl
    | scaleFactorChanged f w h' => exact absurd rfl (h f w h')
    | mouseInput st btn =>
      cases btn <;> simp [ingest, handleEvent, Platform.push, mouseButtonToEgui]
    | mouseWheel d => cases d <;> rfl
    | cursorMoved x y => rfl
    | cursorLeft => rfl
    | modifiersChanged m => rfl
    | keyboardInput kev =>
      simp only [ingest, handleEvent, Option.getD_some]
      repeat' split
      all_goals simp [Platform.push]
    | otherWindowEvent => rfl
  | deviceEvent => rfl
  | otherEvent => rfl

theorem ingest_pointer_pos (p : Platform) (e : WinitEvent)
    (h : ∀ x y, e ≠ WinitEvent.windowEvent (WindowEvent.cursorMoved x y)) :
    (ingest p e).pointer_pos = p.pointer_pos := by
  cases e with
  | windowEvent we =>
    cases we with
    | resized w h' => rfl
    | scaleFactorChanged f w h' => rfl
    | mouseInput st btn =>
      cases btn <;> simp [ingest, handleEvent, Platform.push, mouseButtonToEgui]
    | mouseWheel d => cases d <;> rfl
    | cursorMoved x y => exact absurd rfl (h x y)
    | cursorLeft => rfl
    | modifiersChanged m => rfl
    | keyboardInput kev =>
      simp only [ingest, handleEvent, Option.getD_some]
      repeat' split
      all_goals simp [Platform.push]
    | otherWindowEvent => rfl
  | deviceEvent => rfl
  | otherEvent => rfl

theorem ingest_modifier_state (p : Platform) (e : WinitEvent)
    (h : ∀ m, e ≠ WinitEvent.windowEvent (WindowEvent.modifiersChanged m)) :
    (ingest p e).modifier_state = p.modifier_state := by
  cases e with
  | windowEvent we =>
    cases we with
    | resized w h' => rfl
    | scaleFactorChanged f w h' => rfl
    | mouseInput st btn =>
      cases btn <;> simp [ingest, handleEvent, Platform.push, mouseButtonToEgui]
    | mouseWheel d => cases d <;> rfl
    | cursorMoved x y => rfl
    | cursorLeft => rfl
    | modifiersChanged m => exact absurd rfl (h m)
    | keyboardInput kev =>
      simp only [ingest, handleEvent, Option.getD_some]
      repeat' split
      all_goals simp [Platform.push]
    | otherWindowEvent => rfl
  | deviceEvent => rfl
  | otherEvent => rfl

/-- C4: a mouse-button event for Left, Right or Middle appends exactly one
PointerButton event at the last stored pointer position, with the matching
egui button, pressed iff the event state is Pressed, and default empty
modifiers; Other buttons are dropped; the stored pointer position is the
origin at construction, is set by CursorMoved, and is preserved by every
other event and by begin_frame. -/
theorem C4_pointer_button (p : Platform) :
    (∀ st, (ingest p (WinitEvent.windowEvent (WindowEvent.mouseInput st MouseButton.left))).raw_input.events
      = p.raw_input.events ++ [EguiEvent.pointerButton p.pointer_pos PointerButton.primary
          (st == ElementState.pressed) Modifiers.none])
    ∧ (∀ st, (ingest p (WinitEvent.windowEvent (WindowEvent.mouseInput st MouseButton.right))).raw_input.events
      = p.raw_input.events ++ [EguiEvent.pointerButton p.pointer_pos PointerButton.secondary
          (st == ElementState.pressed) Modifiers.none])
    ∧ (∀ st, (ingest p (WinitEvent.windowEvent (WindowEvent.mouseInput st MouseButton.middle))).raw_input.events
      = p.raw_input.events ++ [EguiEvent.pointerButton p.pointer_pos PointerButton.middle
          (st == ElementState.pressed) Modifiers.none])
    ∧ (∀ st n, ingest p (WinitEvent.windowEvent (WindowEvent.mouseInput st (MouseButton.other n))) = p)
    ∧ (∀ descriptor clip, (Platform.new descriptor clip).pointer_pos = Pos2.zero)
    ∧ (∀ x y, (ingest p (WinitEvent.windowEvent (WindowEvent.cursorMoved x y))).pointer_pos
        = pos2 (x / p.scale_factor) (y / p.scale_factor))
    ∧ (∀ e, (∀ x y, e ≠ WinitEvent.windowEvent (WindowEvent.cursorMoved x y)) →
        (ingest p e).pointer_pos = p.pointer_pos)
    ∧ (beginFrame p).1.pointer_pos = p.pointer_pos := by
  refine ⟨fun st => ?_, fun st => ?_, fun st => ?_, fun st n => rfl, fun d c => rfl,
    fun x y => rfl, fun e h => ingest_pointer_pos p e h, rfl⟩
  all_goals simp [ingest, handleEvent, Platform.push, mouseButtonToEgui]

/-- C4 witness: pressing the left button on the base platform appends one
primary PointerButton event at the origin with empty modifiers. -/
theorem C4_pointer_button_witness :
    (ingest basePlat (WinitEvent.windowEvent (WindowEvent.mouseInput ElementState.pressed MouseButton.left))).raw_input.events
      = basePlat.raw_input.events ++ [EguiEvent.pointerButton basePlat.pointer_pos PointerButton.primary
          (ElementState.pressed == ElementState.pressed) Modifiers.none]
    ∧ (ingest basePlat WinitEvent.deviceEvent).pointer_pos = basePlat.pointer_pos :=
  ⟨(C4_pointer_button basePlat).1 ElementState.pressed,
   (C4_pointer_button basePlat).2.2.2.2.2.2.1 WinitEvent.deviceEvent (by intro x y h; cases h)⟩

/-- C5: a line-delta wheel event stores the delta scaled by 24 into the
pending scroll delta, a pixel-delta wheel event stores it directly, and a
second wheel event overwrites the first: after A then B the pending scroll
delta equals what B alone would have stored. -/
theorem C5_scroll_overwrite (p : Platform) :
    (∀ x y, (ingest p (WinitEvent.windowEvent (WindowEvent.mouseWheel (MouseScrollDelta.lineDelta x y)))).raw_input.scroll_delta
      = vec2 (x * 24) (y * 24))
    ∧ (∀ x y, (ingest p (WinitEvent.windowEvent (WindowEvent.mouseWheel (MouseScrollDelta.pixelDelta x y)))).raw_input.scroll_delta
      = vec2 x y)
    ∧ (∀ a b, (ingest (ingest p (WinitEvent.windowEvent (WindowEvent.mouseWheel a)))
          (WinitEvent.windowEvent (WindowEvent.mouseWheel b))).raw_input.scroll_delta
      = (ingest p (WinitEvent.windowEvent (WindowEvent.mouseWheel b))).raw_input.scroll_delta) := by
  refine ⟨fun x y => rfl, fun x y => rfl, fun a b => ?_⟩
  cases a <;> cases b <;> rfl

/-- C7: at construction, after a Resized event, and after a
ScaleFactorChanged event the stored logical screen rectangle is the
physical size divided componentwise by the governing scale factor; the
construction also sets pixels-per-point to the scale factor, and the
(800, 600) at factor 2 scenario yields a (400, 300) rectangle. -/
theorem C7_screen_rect (p : Platform) :
    (∀ descriptor clip,
      (Platform.new descriptor clip).raw_input.screen_rect
        = some (Rect.from_min_size Pos2.zero
            (vec2 ((descriptor.physical_width : ℚ) / descriptor.scale_factor)
              ((descriptor.physical_height : ℚ) / descriptor.scale_factor)))
      ∧ (Platform.new descriptor clip).raw_input.pixels_per_point = some descriptor.scale_factor
      ∧ (Platform.new descriptor clip).scale_factor = descriptor.scale_factor)
    ∧ (∀ w h, (ingest p (WinitEvent.windowEvent (WindowEvent.resized w h))).raw_input.screen_rect
        = some (Rect.from_min_size Pos2.zero
            (vec2 ((w : ℚ) / p.scale_factor) ((h : ℚ) / p.scale_factor))))
    ∧ (∀ f w h,
        (ingest p (WinitEvent.windowEvent (WindowEvent.scaleFactorChanged f w h))).scale_factor = f
        ∧ (ingest p (WinitEvent.windowEvent (WindowEvent.scaleFactorChanged f w h))).raw_input.pixels_per_point = some f
        ∧ (ingest p (WinitEvent.windowEvent (WindowEvent.scaleFactorChanged f w h))).raw_input.screen_rect
          = some (Rect.from_min_size Pos2.zero (vec2 ((w : ℚ) / f) ((h : ℚ) / f))))
    ∧ (Platform.new ⟨800, 600, 2⟩ Option.none).raw_input.screen_rect
      = some ⟨⟨0, 0⟩, ⟨400, 300⟩⟩ := by
  refine ⟨fun d c => ⟨rfl, rfl, rfl⟩, fun w h => rfl, fun f w h => ⟨rfl, rfl, rfl⟩, ?_⟩
  simp only [Platform.new, Rect.from_min_size, Vec2.sdiv, vec2, Pos2.zero]
  norm_num

/-- C8: captures_event reports the wants-keyboard-input answer for
keyboard and modifier-change window events, the wants-pointer-input
answer for wheel and mouse-button window events, the is-using-pointer
answer for cursor-moved window events, and false for every other event;
it is a pure function of the context answers and the event, so it
mutates no bridge state. -/
theorem C8_captures_event (ctx : ContextFlags) :
    (∀ kev, captures_event ctx (WinitEvent.windowEvent (WindowEvent.keyboardInput kev)) = ctx.wants_keyboard_input)
    ∧ (∀ m, captures_event ctx (WinitEvent.windowEvent (WindowEvent.modifiersChanged m)) = ctx.wants_keyboard_input)
    ∧ (∀ d, captures_event ctx (WinitEvent.windowEvent (WindowEvent.mouseWheel d)) = ctx.wants_pointer_input)
    ∧ (∀ st b, captures_event ctx (WinitEvent.windowEvent (WindowEvent.mouseInput st b)) = ctx.wants_pointer_input)
    ∧ (∀ x y, captures_event ctx (WinitEvent.windowEvent (WindowEvent.cursorMoved x y)) = ctx.is_using_pointer)
    ∧ (∀ w h, captures_event ctx (WinitEvent.windowEvent (WindowEvent.resized w h)) = false)
    ∧ (∀ f w h, captures_event ctx (WinitEvent.windowEvent (WindowEvent.scaleFactorChanged f w h)) = false)
    ∧ captures_event ctx (WinitEvent.windowEvent WindowEvent.cursorLeft) = false
    ∧ captures_event ctx (WinitEvent.windowEvent WindowEvent.otherWindowEvent) = false
    ∧ captures_event ctx WinitEvent.deviceEvent = false
    ∧ captures_event ctx WinitEvent.otherEvent = false :=
  ⟨fun _ => rfl, fun _ => rfl, fun _ => rfl, fun _ _ => rfl, fun _ _ => rfl,
   fun _ _ => rfl, fun _ _ _ => rfl, rfl, rfl, rfl, rfl⟩

theorem ingestList_events (p : Platform) (es : List WinitEvent) :
    (ingestList p es).raw_input.events = p.raw_input.events ++ traceEvents p es := by
  induction es generalizing p with
  | nil => simp [ingestList, traceEvents]
  | cons e es ih =>
    show (ingestList (ingest p e) es).raw_input.events = _
    rw [ih, handleEvent_events, traceEvents, List.append_assoc]

/-- C1: after ingesting any sequence of host events, begin_frame hands the
GUI engine the entire pending raw input: the normalized events accumulated
in ingestion order together with the ambient fields, and leaves a fresh
empty pending state behind, so the pending event buffer has length 0
afterwards. -/
theorem C1_begin_frame_extracts_pending (p : Platform) (es : List WinitEvent) :
    (beginFrame (ingestList p es)).2 = (ingestList p es).raw_input
    ∧ (ingestList p es).raw_input.events = p.raw_input.events ++ traceEvents p es
    ∧ (beginFrame (ingestList p es)).1.raw_input = RawInput.empty
    ∧ (beginFrame (ingestList p es)).1.raw_input.events.length = 0 :=
  ⟨rfl, ingestList_events p es, rfl, rfl⟩

/-- C10: ingestion preserves the stored scale factor except on
scale-factor changes, the stored pointer position except on cursor moves,
and the stored modifier state except on modifier changes; a modifier
change only replaces the modifier state and appends no event; and
begin_frame resets exactly the pending raw input, preserving all other
bridge state. -/
theorem C10_tracking_state_isolation :
    (∀ (p : Platform) (e : WinitEvent),
      ((∀ f w h, e ≠ WinitEvent.windowEvent (WindowEvent.scaleFactorChanged f w h)) →
        (ingest p e).scale_factor = p.scale_factor)
      ∧ ((∀ x y, e ≠ WinitEvent.windowEvent (WindowEvent.cursorMoved x y)) →
        (ingest p e).pointer_pos = p.pointer_pos)
      ∧ ((∀ m, e ≠ WinitEvent.windowEvent (WindowEvent.modifiersChanged m)) →
        (ingest p e).modifier_state = p.modifier_state))
    ∧ (∀ (p : Platform) (m : ModifiersState),
        ingest p (WinitEvent.windowEvent (WindowEvent.modifiersChanged m))
          = { p with modifier_state := m })
    ∧ (∀ p : Platform, (beginFrame p).1 = { p with raw_input := RawInput.empty }) :=
  ⟨fun p e => ⟨ingest_scale_factor p e, ingest_pointer_pos p e, ingest_modifier_state p e⟩,
   fun _ _ => rfl, fun _ => rfl⟩

/-- C10 witness: a device event on the base platform leaves scale factor,
pointer position and modifier state unchanged; a modifier change replaces
only the modifier state; begin_frame resets only the raw input. -/
theorem C10_tracking_state_isolation_witness :
    (ingest basePlat WinitEvent.deviceEvent).scale_factor = basePlat.scale_factor
    ∧ (ingest basePlat WinitEvent.deviceEvent).pointer_pos = basePlat.pointer_pos
    ∧ (ingest basePlat WinitEvent.deviceEvent).modifier_state = basePlat.modifier_state
    ∧ ingest basePlat (WinitEvent.windowEvent (WindowEvent.modifiersChanged ctrlMods))
      = { basePlat with modifier_state := ctrlMods }
    ∧ (beginFrame basePlat).1 = { basePlat with raw_input := RawInput.empty } :=
  ⟨(C10_tracking_state_isolation.1 basePlat WinitEvent.deviceEvent).1
      (by intro f w h hq; cases hq),
   (C10_tracking_state_isolation.1 basePlat WinitEvent.deviceEvent).2.1
      (by intro x y hq; cases hq),
   (C10_tracking_state_isolation.1 basePlat WinitEvent.deviceEvent).2.2
      (by intro m hq; cases hq),
   C10_tracking_state_isolation.2.1 basePlat ctrlMods,
   C10_tracking_state_isolation.2.2 basePlat⟩

/-- C9: event ingestion is total: handle_event never reaches the panic
path on any host event (the unreachable arm is protected by the guard,
which lets only buttons with a translation through), and unrecognized
mouse buttons, device events, unlisted window events, and unmapped keys
with no text leave the platform unchanged. -/
theorem C9_ingestion_total :
    (∀ (p : Platform) (e : WinitEvent), handleEvent p e = some (ingest p e))
    ∧ (∀ (p : Platform) (st : ElementState) (n : Nat),
        handleEvent p (WinitEvent.windowEvent (WindowEvent.mouseInput st (MouseButton.other n))) = some p)
    ∧ (∀ b : MouseButton, (∀ n, b ≠ MouseButton.other n) → ∃ eb, mouseButtonToEgui b = some eb)
    ∧ (∀ p : Platform, handleEvent p WinitEvent.deviceEvent = some p)
    ∧ (∀ p : Platform, handleEvent p WinitEvent.otherEvent = some p)
    ∧ (∀ p : Platform, handleEvent p (WinitEvent.windowEvent WindowEvent.otherWindowEvent) = some p)
    ∧ (∀ (p : Platform) (kev : KeyEvent),
        winit_to_egui_key_code kev.logical_key = Option.none →
        isCharKey kev.logical_key "c" = false →
        isCharKey kev.logical_key "x" = false →
        isCharKey kev.logical_key "v" = false →
        kev.text = Option.none →
        handleEvent p (WinitEvent.windowEvent (WindowEvent.keyboardInput kev)) = some p) := by
  refine ⟨handleEvent_total, fun p st n => rfl, fun b hb => ?_, fun p => rfl, fun p => rfl,
    fun p => rfl, fun p kev hkey hc hx hv htext => ?_⟩
  · cases b with
    | left => exact ⟨PointerButton.primary, rfl⟩
    | right => exact ⟨PointerButton.secondary, rfl⟩
    | middle => exact ⟨PointerButton.middle, rfl⟩
    | other n => exact absurd rfl (hb n)
  · simp only [handleEvent, hkey, hc, hx, hv, htext, Bool.and_false]
    split <;> rfl

/-- C9 witness: handle_event succeeds on a device event, on an Other
mouse button, the left button has a translation, and an unmapped key
press with no text is a no-op. -/
theorem C9_ingestion_total_witness :
    handleEvent basePlat WinitEvent.deviceEvent = some basePlat
    ∧ handleEvent basePlat (WinitEvent.windowEvent (WindowEvent.mouseInput ElementState.pressed (MouseButton.other 4))) = some basePlat
    ∧ (∃ eb, mouseButtonToEgui MouseButton.left = some eb)
    ∧ handleEvent basePlat (WinitEvent.windowEvent (WindowEvent.keyboardInput
        ⟨ElementState.pressed, WinKey.character "q", Option.none⟩)) = some basePlat :=
  ⟨C9_ingestion_total.2.2.2.1 basePlat,
   C9_ingestion_total.2.1 basePlat ElementState.pressed 4,
   C9_ingestion_total.2.2.1 MouseButton.left (by intro n hq; cases hq),
   C9_ingestion_total.2.2.2.2.2.2 basePlat ⟨ElementState.pressed, WinKey.character "q", Option.none⟩
     (by decide) (by decide) (by decide) (by decide) rfl⟩

theorem eqIgnoreAsciiCase_elim {c a b : String}
    (h : eqIgnoreAsciiCase c a = true)
    (hne : a.data.map asciiLower ≠ b.data.map asciiLower) :
    eqIgnoreAsciiCase c b = false := by
  simp only [eqIgnoreAsciiCase, beq_iff_eq] at h
  simp only [eqIgnoreAsciiCase, beq_eq_false_iff_ne, ne_eq, h]
  exact hne

theorem isCharKey_elim {k : WinKey} {a b : String}
    (h : isCharKey k a = true)
    (hne : a.data.map asciiLower ≠ b.data.map asciiLower) :
    isCharKey k b = false := by
  cases k <;> simp_all [isCharKey]
  exact eqIgnoreAsciiCase_elim h hne

/-- C2: with ctrl held in the stored modifier state, a key press on a
letter matching c case-insensitively appends exactly one Copy event, on x
exactly one Cut event, and on v exactly one Text event with the clipboard
contents when a handle is present and the read succeeds; a Ctrl+V press
with an absent handle or a failed read appends nothing, and none of the
cases append a generic Key event. -/
theorem C2_ctrl_shortcuts :
    (∀ (p : Platform) (kev : KeyEvent),
      p.modifier_state.control = true →
      kev.state = ElementState.pressed →
      isCharKey kev.logical_key "c" = true →
      (ingest p (WinitEvent.windowEvent (WindowEvent.keyboardInput kev))).raw_input.events
        = p.raw_input.events ++ [EguiEvent.copy])
    ∧ (∀ (p : Platform) (kev : KeyEvent),
      p.modifier_state.control = true →
      kev.state = ElementState.pressed →
      isCharKey kev.logical_key "x" = true →
      (ingest p (WinitEvent.windowEvent (WindowEvent.keyboardInput kev))).raw_input.events
        = p.raw_input.events ++ [EguiEvent.cut])
    ∧ (∀ (p : Platform) (kev : KeyEvent) (s : String),
      p.modifier_state.control = true →
      kev.state = ElementState.pressed →
      isCharKey kev.logical_key "v" = true →
      p.clipboard = some (some s) →
      (ingest p (WinitEvent.windowEvent (WindowEvent.keyboardInput kev))).raw_input.events
        = p.raw_input.events ++ [EguiEvent.text s])
    ∧ (∀ (p : Platform) (kev : KeyEvent),
      p.modifier_state.control = true →
      kev.state = ElementState.pressed →
      isCharKey kev.logical_key "v" = true →
      (p.clipboard = Option.none ∨ p.clipboard = some Option.none) →
      (ingest p (WinitEvent.windowEvent (WindowEvent.keyboardInput kev))).raw_input.events
        = p.raw_input.events) := by
  refine ⟨fun p kev hctrl hst hc => ?_, fun p kev hctrl hst hx => ?_,
    fun p kev s hctrl hst hv hclip => ?_, fun p kev hctrl hst hv hclip => ?_⟩
  · rw [handleEvent_events]
    cases htext : kev.text <;> simp [normEvents, hctrl, hst, hc, htext]
  · have hc := isCharKey_elim hx
      (show ("x" : String).data.map asciiLower ≠ ("c" : String).data.map asciiLower by decide)
    rw [handleEvent_events]
    cases htext : kev.text <;> simp [normEvents, hctrl, hst, hx, hc, htext]
  · have hc := isCharKey_elim hv
      (show ("v" : String).data.map asciiLower ≠ ("c" : String).data.map asciiLower by decide)
    have hx := isCharKey_elim hv
      (show ("v" : String).data.map asciiLower ≠ ("x" : String).data.map asciiLower by decide)
    rw [handleEvent_events]
    cases htext : kev.text <;> simp [normEvents, hctrl, hst, hv, hc, hx, hclip, htext]
  · have hc := isCharKey_elim hv
      (show ("v" : String).data.map asciiLower ≠ ("c" : String).data.map asciiLower by decide)
    have hx := isCharKey_elim hv
      (show ("v" : String).data.map asciiLower ≠ ("x" : String).data.map asciiLower by decide)
    rw [handleEvent_events]
    rcases hclip with hclip | hclip <;> cases htext : kev.text <;>
      simp [normEvents, hctrl, hst, hv, hc, hx, hclip, htext]

/-- C2 witness: on a ctrl-held platform, pressing C appends exactly one
Copy event, x one Cut event, v with a readable clipboard one Text event
with the clipboard contents, and v with no clipboard handle appends
nothing. -/
theorem C2_ctrl_shortcuts_witness :
    (ingest ctrlPlat (kbd ElementState.pressed (WinKey.character "C") (some "c"))).raw_input.events
      = ctrlPlat.raw_input.events ++ [EguiEvent.copy]
    ∧ (ingest ctrlPlat (kbd ElementState.pressed (WinKey.character "x") Option.none)).raw_input.events
      = ctrlPlat.raw_input.events ++ [EguiEvent.cut]
    ∧ (ingest ctrlClipPlat (kbd ElementState.pressed (WinKey.character "v") Option.none)).raw_input.events
      = ctrlClipPlat.raw_input.events ++ [EguiEvent.text "hi"]
    ∧ (ingest ctrlPlat (kbd ElementState.pressed (WinKey.character "v") Option.none)).raw_input.events
      = ctrlPlat.raw_input.events :=
  ⟨C2_ctrl_shortcuts.1 ctrlPlat ⟨ElementState.pressed, WinKey.character "C", some "c"⟩
      rfl rfl (by decide),
   C2_ctrl_shortcuts.2.1 ctrlPlat ⟨ElementState.pressed, WinKey.character "x", Option.none⟩
      rfl rfl (by decide),
   C2_ctrl_shortcuts.2.2.1 ctrlClipPlat ⟨ElementState.pressed, WinKey.character "v", Option.none⟩
      "hi" rfl rfl (by decide) rfl,
   C2_ctrl_shortcuts.2.2.2 ctrlPlat ⟨ElementState.pressed, WinKey.character "v", Option.none⟩
      rfl rfl (by decide) (Or.inl rfl)⟩

/-- C3 counterexample: a released keyboard event that carries decoded
text does append an event: on the base platform (empty pending buffer,
no modifiers) releasing a key with text a appends a Text event, refuting
the claim that release events append nothing at all. -/
theorem C3_counterexample :
    basePlat.raw_input.events = []
    ∧ (ingest basePlat (kbd ElementState.released (WinKey.character "a") (some "a"))).raw_input.events
      = [EguiEvent.text "a"] := by
  exact ⟨rfl, by decide⟩

/-- C3 amended: a released keyboard event appends no Copy, Cut, Key or
clipboard-paste event; the only events it can append come from the
decoded-text path, which ignores the press state: if the event carries
text whose printable-filtered form is non-empty and neither ctrl nor
super is held, exactly one Text event with the filtered text is appended,
otherwise nothing is. -/
theorem C3_release_events (p : Platform) (kev : KeyEvent)
    (h : kev.state = ElementState.released) :
    (ingest p (WinitEvent.windowEvent (WindowEvent.keyboardInput kev))).raw_input.events
      = p.raw_input.events ++
        (match kev.text with
         | some text =>
           if !p.modifier_state.control && !p.modifier_state.superKey then
             if !(String.mk (text.data.filter fun ch => is_printable ch)).isEmpty then
               [EguiEvent.text (String.mk (text.data.filter fun ch => is_printable ch))]
             else []
           else []
         | Option.none => []) := by
  rw [handleEvent_events]
  congr 1
  simp [normEvents, h]

/-- C3 witness: releasing the escape key with no decoded text appends
nothing. -/
theorem C3_release_events_witness :
    (ingest basePlat (kbd ElementState.released WinKey.escape Option.none)).raw_input.events = [] := by
  have h := C3_release_events basePlat ⟨ElementState.released, WinKey.escape, Option.none⟩ rfl
  simpa [basePlat, Platform.new, RawInput.empty] using h

theorem text_mem_normEvents_keyboard (p : Platform) (st : ElementState) (lk : WinKey)
    (t : String)
    (hexcl : ¬(st = ElementState.pressed ∧ p.modifier_state.control = true
      ∧ isCharKey lk "v" = true ∧ ∃ s, p.clipboard = some (some s)))
    (s : String) :
    EguiEvent.text s ∈ normEvents p (WinitEvent.windowEvent (WindowEvent.keyboardInput ⟨st, lk, some t⟩))
      ↔ (p.modifier_state.control = false ∧ p.modifier_state.superKey = false
         ∧ String.mk (t.data.filter fun ch => is_printable ch) ≠ ""
         ∧ s = String.mk (t.data.filter fun ch => is_printable ch)) := by
  simp only [normEvents]
  cases hctrl : p.modifier_state.control with
  | true =>
    cases st with
    | released => simp [hctrl]
    | pressed =>
      cases hc : isCharKey lk "c" with
      | true => simp [hctrl, hc]
      | false =>
        cases hx : isCharKey lk "x" with
        | true => simp [hctrl, hc, hx]
        | false =>
          cases hv : isCharKey lk "v" with
          | true =>
            cases hclip : p.clipboard with
            | none => simp [hctrl, hc, hx, hv, hclip]
            | some o =>
              cases o with
              | none => simp [hctrl, hc, hx, hv, hclip]
              | some s' => exact absurd ⟨rfl, hctrl, hv, s', hclip⟩ hexcl
          | false =>
            cases hkc : winit_to_egui_key_code lk <;> simp [hctrl, hc, hx, hv, hkc]
  | false =>
    cases hsuper : p.modifier_state.superKey with
    | true =>
      cases st with
      | released => simp [hctrl, hsuper]
      | pressed =>
        cases hkc : winit_to_egui_key_code lk <;> simp [hctrl, hsuper, hkc]
    | false =>
      cases hfe : (String.mk (t.data.filter fun ch => is_printable ch)).isEmpty with
      | true =>
        have hemp : String.mk (t.data.filter fun ch => is_printable ch) = "" :=
          (String.isEmpty_iff _).mp hfe
        cases st with
        | released => simp [hctrl, hsuper, hfe, hemp]
        | pressed =>
          cases hkc : winit_to_egui_key_code lk <;> simp [hctrl, hsuper, hfe, hemp, hkc]
      | false =>
        have hne : String.mk (t.data.filter fun ch => is_printable ch) ≠ "" := by
          intro hh
          rw [hh] at hfe
          cases hfe
        cases st with
        | released => simp [hctrl, hsuper, hfe, hne]
        | pressed =>
          cases hkc : winit_to_egui_key_code lk <;>
            simp [hctrl, hsuper, hfe, hne, hkc, eq_comm]

/-- C6 counterexample: the claimed iff fails on a Ctrl+V press with a
readable clipboard: ctrl is held, yet a Text event (carrying the
clipboard contents) is appended. -/
theorem C6_counterexample :
    ctrlClipPlat.modifier_state.control = true
    ∧ (ingest ctrlClipPlat (kbd ElementState.pressed (WinKey.character "v") (some "v"))).raw_input.events
      = [EguiEvent.text "hi"] :=
  ⟨rfl, by decide⟩

/-- C6 amended: for a keyboard event carrying decoded text that is not a
Ctrl+V press with a present clipboard and successful read, a Text event
is appended iff neither ctrl nor super is held and the text filtered to
printable characters is non-empty, and any appended Text event carries
exactly the filtered text; a character is filtered out exactly when it
is an ASCII control character or lies in one of the three private-use
ranges. -/
theorem C6_printable_text_filtering :
    (∀ (p : Platform) (kev : KeyEvent) (t : String),
      p.raw_input.events = [] →
      kev.text = some t →
      ¬(kev.state = ElementState.pressed ∧ p.modifier_state.control = true
        ∧ isCharKey kev.logical_key "v" = true ∧ ∃ s, p.clipboard = some (some s)) →
      (((∃ s, EguiEvent.text s ∈ (ingest p (WinitEvent.windowEvent (WindowEvent.keyboardInput kev))).raw_input.events)
          ↔ p.modifier_state.control = false ∧ p.modifier_state.superKey = false
            ∧ String.mk (t.data.filter fun ch => is_printable ch) ≠ "")
        ∧ (∀ s, EguiEvent.text s ∈ (ingest p (WinitEvent.windowEvent (WindowEvent.keyboardInput kev))).raw_input.events →
            s = String.mk (t.data.filter fun ch => is_printable ch))))
    ∧ (∀ ch : Char, is_printable ch = false ↔
        (ch.toNat ≤ 0x1f ∨ ch.toNat = 0x7f
         ∨ (0xe000 ≤ ch.toNat ∧ ch.toNat ≤ 0xf8ff)
         ∨ (0xf0000 ≤ ch.toNat ∧ ch.toNat ≤ 0xffffd)
         ∨ (0x100000 ≤ ch.toNat ∧ ch.toNat ≤ 0x10fffd))) := by
  constructor
  · intro p kev t hbuf htext hexcl
    have hev : (ingest p (WinitEvent.windowEvent (WindowEvent.keyboardInput kev))).raw_input.events
        = normEvents p (WinitEvent.windowEvent (WindowEvent.keyboardInput kev)) := by
      rw [handleEvent_events, hbuf, List.nil_append]
    rw [hev]
    obtain ⟨st, lk, tx⟩ := kev
    obtain rfl : tx = some t := htext
    have hmem := text_mem_normEvents_keyboard p st lk t hexcl
    constructor
    · constructor
      · rintro ⟨s, hs⟩
        obtain ⟨h1, h2, h3, _⟩ := (hmem s).mp hs
        exact ⟨h1, h2, h3⟩
      · rintro ⟨h1, h2, h3⟩
        exact ⟨_, (hmem _).mpr ⟨h1, h2, h3, rfl⟩⟩
    · intro s hs
      exact ((hmem s).mp hs).2.2.2
  · intro ch
    rw [show (is_printable ch = false) ↔ ¬(is_printable ch = true) by simp]
    simp only [is_printable, Char.is_ascii_control, Bool.and_eq_true, Bool.not_eq_true',
      Bool.or_eq_false_iff, Bool.and_eq_false_iff, beq_eq_false_iff_ne, ne_eq,
      decide_eq_false_iff_not, not_le, not_and, not_or, not_not, not_forall, not_lt]
    omega

/-- C6 witness: on the base platform (no modifiers held), pressing an
unmapped key with decoded text mixing a letter, an ASCII control
character and a private-use character appends a Text event containing
exactly the letters; an all-filtered text appends no Text event. -/
theorem C6_printable_text_filtering_witness :
    (∃ s, EguiEvent.text s ∈ (ingest basePlat (kbd ElementState.pressed WinKey.otherKey (some "a\x01b"))).raw_input.events)
    ∧ (∀ s, EguiEvent.text s ∈ (ingest basePlat (kbd ElementState.pressed WinKey.otherKey (some "a\x01b"))).raw_input.events →
        s = "ab")
    ∧ (∀ s, EguiEvent.text s ∈ (ingest basePlat (kbd ElementState.pressed WinKey.otherKey (some "\x01"))).raw_input.events →
        False) := by
  have h1 := C6_printable_text_filtering.1 basePlat
    ⟨ElementState.pressed, WinKey.otherKey, some "a\x01b"⟩ "a\x01b" rfl rfl
    (by rintro ⟨-, hcon, -⟩; cases hcon)
  have h2 := C6_printable_text_filtering.1 basePlat
    ⟨ElementState.pressed, WinKey.otherKey, some "\x01"⟩ "\x01" rfl rfl
    (by rintro ⟨-, hcon, -⟩; cases hcon)
  refine ⟨h1.1.mpr ⟨rfl, rfl, by decide⟩, ?_, ?_⟩
  · intro s hs
    have := h1.2 s hs
    rw [this]
    decide
  · intro s hs
    exact absurd ((h2.1).mp ⟨s, hs⟩).2.2 (by decide)

end EguiWinit
